import Mathlib

/-!
Verification of the keyword-based organization classifier
(`classifier_core.py`).

The Python code is shallowly embedded: strings are Lean `String`s
(lists of characters), Python `float` scores are modelled as exact
rationals `ℚ` (every arithmetic operation performed by the program on
scores — addition of counts, the 0.3 weighting, division by the total
and scaling by 100 — is exact on the inputs the program builds, so the
rational model is faithful up to the usual idealization of IEEE
doubles), Python `dict`s are insertion-ordered association lists, and
the network-fetching step `fetch_url` is factored out: the classifier
entrypoint takes the already-acquired text as a parameter, matching
the specification, which treats text acquisition as an external
collaborator returning lowercase text or the empty string.
-/

/-- Boolean test that the first character list starts the second one
(the check Python performs at each scan position of `str.count`). -/
def leadsWith : List Char → List Char → Bool
  | [], _ => true
  | _ :: _, [] => false
  | a :: as, b :: bs => a == b && leadsWith as bs

/-- Scanning loop of Python `hay.count(needle)` for a non-empty
needle: left-to-right, non-overlapping occurrences.  The fuel
argument (always instantiated with the length of the scanned list,
an upper bound on the number of scan steps) merely makes the
recursion structural, so that the function evaluates inside the
kernel; it never runs out. -/
def pyCountFuel (needle : List Char) : Nat → List Char → Nat
  | _, [] => 0
  | 0, _ :: _ => 0
  | fuel + 1, c :: rest =>
    if leadsWith needle (c :: rest) then
      1 + pyCountFuel needle fuel (List.drop (needle.length - 1) rest)
    else
      pyCountFuel needle fuel rest

/-- Python `hay.count(needle)`: for the empty needle Python returns
`len(hay) + 1`; otherwise non-overlapping occurrences are counted. -/
def pyCount (needle hay : List Char) : Nat :=
  if needle.isEmpty then hay.length + 1 else pyCountFuel needle hay.length hay

/-- Python substring membership `needle in hay`. -/
def containsSub (needle : List Char) : List Char → Bool
  | [] => needle.isEmpty
  | c :: rest => leadsWith needle (c :: rest) || containsSub needle rest

/-- Python substring membership on `String`s. -/
def containsStr (needle hay : String) : Bool :=
  containsSub needle.data hay.data

/-- Python `s.lower()`: character-wise lowering (the inputs of
interest are ASCII, where `Char.toLower` agrees with Python).
Defined directly on the character list so that it evaluates inside
the kernel. -/
def pyLower (s : String) : String :=
  ⟨s.data.map Char.toLower⟩

/-- `count_matches(text, keywords)` from `classifier_core.py`:
for each keyword occurring in the text, add `text.count(kw)`. -/
def count_matches (text : String) (keywords : List String) : Nat :=
  keywords.foldl
    (fun total kw =>
      if containsSub kw.data text.data then total + pyCount kw.data text.data
      else total)
    0

/-- A Python `dict[str, float]` as an insertion-ordered association
list with rational values. -/
abbrev ScoreMap := List (String × ℚ)

/-- Python `dict.get(k, d)` (first binding of the key wins; the maps
built by the program never repeat a key). -/
def getD : ScoreMap → String → ℚ → ℚ
  | [], _, d => d
  | p :: rest, k, d => if p.1 = k then p.2 else getD rest k d

/-- Python `dict` assignment `m[k] = v`: update in place when the key
exists (keeping its position), otherwise append at the end. -/
def setKey : ScoreMap → String → ℚ → ScoreMap
  | [], k, v => [(k, v)]
  | p :: rest, k, v => if p.1 = k then (k, v) :: rest else p :: setKey rest k v

/-- Python `max(m.items(), key=lambda x: x[1])`: the first item whose
value attains the maximum (`max` keeps the earlier candidate on ties). -/
def pyMaxByVal : ScoreMap → String × ℚ
  | [] => ("", 0)
  | x :: xs => xs.foldl (fun acc y => if acc.2 < y.2 then y else acc) x

/-- `sum(v for v in scores.values() if v > 0)`. -/
def sumPos (m : ScoreMap) : ℚ :=
  ((m.map Prod.snd).filter (fun v => decide (0 < v))).sum

/-- `normalize_scores` from `classifier_core.py`. -/
def normalize_scores (scores : ScoreMap) : ScoreMap :=
  let total := sumPos scores
  if total ≤ 0 then scores.map (fun p => (p.1, (0 : ℚ)))
  else scores.map (fun p => (p.1, p.2 / total * 100))

/-- Modelled from the spec (section 4.2), NOT from the source: the
spec claims each key is sent to `(max(value,0)/total) * 100.0`,
clamping negative values; the source divides the raw value without
clamping.  Kept for comparison with `normalize_scores`. -/
def normalize_scores_specModel (scores : ScoreMap) : ScoreMap :=
  let total := sumPos scores
  if total ≤ 0 then scores.map (fun p => (p.1, (0 : ℚ)))
  else scores.map (fun p => (p.1, max p.2 0 / total * 100))

-- ---------- Keyword configs (transcribed from classifier_core.py) ----------

def RELIGION_KEYWORDS : List (String × List String) :=
  [("Islam",
    ["mosque", "masjid", "islamic", "muslim", "ummah",
     "zakat", "sadaqa", "sadaqah", "waqf", "ramadan",
     "eid", "qurbani", "udhiyah", "fidyah", "kaffarah"]),
   ("Christianity",
    ["church", "parish", "diocese", "cathedral", "chapel",
     "ministry", "ministries", "christian", "catholic",
     "orthodox", "baptist", "lutheran", "pentecostal",
     "evangelical", "jesus", "christ", "gospel"]),
   ("Judaism",
    ["synagogue", "shul", "yeshiva", "yeshivah", "temple",
     "jewish", "judaism", "tzedakah", "tzedaka", "tzedokah",
     "maaser", "ma\x27aser", "high holidays", "rosh hashanah",
     "yom kippur", "sukkot", "simchat torah"]),
   ("Multi-faith",
    ["interfaith", "inter faith", "inter-faith",
     "multi-faith", "multi faith",
     "inter faith network", "multi-faith network"])]

def GENERIC_FAITH_KEYWORDS : List String :=
  ["faith-based", "faith based", "religious organization",
   "religious non-profit", "religious nonprofit",
   "worship", "spiritual community", "congregation",
   "house of worship", "faith communities", "faith community"]

def WORSHIP_PLACE_KEYWORDS : List String :=
  ["church", "parish", "diocese", "cathedral", "chapel",
   "mosque", "masjid", "synagogue", "shul", "temple",
   "congregation", "house of worship"]

def WORSHIP_PRACTICE_KEYWORDS : List String :=
  ["worship service", "worship services", "sunday service",
   "mass", "liturgy", "prayer service", "daily prayers",
   "friday prayer", "jummah", "shabbat", "shabbos"]

def GLOBAL_NGO_KEYWORDS : List String :=
  ["relief", "foundation", "international", "global",
   "aid", "charity", "humanitarian", "development",
   "mission", "missions", "ministries", "ngo", "non-profit",
   "nonprofit", "organisation", "organization", "network"]

def LOCAL_COMMUNITY_KEYWORDS : List String :=
  ["community center", "community centre", "family services",
   "food bank", "food pantry", "soup kitchen", "shelter",
   "clinic", "school", "youth group", "local community",
   "serving the community of"]

def INACTIVE_PHRASES : List String :=
  ["has now closed",
   "has closed",
   "ceased operations",
   "ceased to operate",
   "no longer operating",
   "no longer exists",
   "has been wound up",
   "has now been wound up",
   "this organisation has closed",
   "this organization has closed",
   "was dissolved",
   "has been dissolved",
   "has now been dissolved",
   "dissolved on"]

def ARCHIVE_PHRASES : List String :=
  ["this website is an archive",
   "this site is an archive",
   "this site is no longer updated",
   "this website is no longer updated",
   "for historical reference only",
   "archived version of the site"]

/-- The local `origin_keywords` list of `detect_type`. -/
def origin_keywords : List String :=
  ["founded by the catholic church",
   "founded by the church",
   "founded by the methodist church",
   "founded by the presbyterian church",
   "founded by the episcopal church",
   "founded by the lutheran church",
   "founded by the anglican church",
   "jesuit university",
   "jesuit college",
   "sponsored by the church",
   "sponsored by the diocese",
   "owned by the church",
   "catholic health system",
   "christian health system",
   "faith-based hospital"]

/-- The local `community_keywords` list of `detect_type`. -/
def community_keywords : List String :=
  ["friends of", "supporting the work of", "in partnership with synagogues",
   "in partnership with churches", "supported by congregations",
   "supported by parishes", "supported by local churches",
   "supported by mosques", "supported by the jewish community",
   "supported by the muslim community", "supported by the christian community"]

-- ---------- The three detectors ----------

/-- The combined text every detector works on:
Python `f"{name.lower()} {text or ''}"` (the no-text case degrades to
the empty string, which coincides with concatenating the text). -/
def combinedText (text name : String) : String :=
  pyLower name ++ " " ++ text

/-- The raw religion score map of `detect_religion`: one count per
entry of `RELIGION_KEYWORDS`, in the insertion order of the dict. -/
def religionScores (combined : String) : ScoreMap :=
  RELIGION_KEYWORDS.map (fun p => (p.1, (count_matches combined p.2 : ℚ)))

/-- `generic_score` of `detect_religion`. -/
def genericScore (combined : String) : ℚ :=
  (count_matches combined GENERIC_FAITH_KEYWORDS : ℚ)

/-- The `main_rels` list of `detect_religion`. -/
def MAIN_RELS : List String := ["Islam", "Christianity", "Judaism"]

/-- The `main_scores` dict of `detect_religion`. -/
def mainScores (scores : ScoreMap) : ScoreMap :=
  MAIN_RELS.map (fun r => (r, getD scores r 0))

/-- The explicit interfaith marker test on the organization name
performed by rule 1 of `detect_religion`. -/
def nameHasInterfaithMarker (name : String) : Bool :=
  containsStr "interfaith" (pyLower name)
    || containsStr "multi-faith" (pyLower name)
    || containsStr "multi faith" (pyLower name)

/-- `detect_religion(text, name)` returning
`(label, raw score map, confidence)`. -/
def detect_religion (text name : String) : String × ScoreMap × ℚ :=
  let combined := combinedText text name
  let scores := religionScores combined
  let generic_score := genericScore combined
  let main_scores := mainScores scores
  let multi_score := getD scores "Multi-faith" 0
  let mm := pyMaxByVal main_scores
  if mm.2 = 0 ∧ multi_score = 0 ∧ generic_score = 0 then
    ("Other/Unknown", scores, 0)
  else if nameHasInterfaithMarker name = true then
    let scores2 := if multi_score = 0 then setKey scores "Multi-faith" 1 else scores
    ("Multi-faith", scores2, getD (normalize_scores scores2) "Multi-faith" 80)
  else if 2 ≤ mm.2 ∨ multi_score < mm.2 then
    (mm.1, scores, getD (normalize_scores scores) mm.1 0)
  else if 0 < multi_score ∧ mm.2 = 0 then
    ("Multi-faith", scores, getD (normalize_scores scores) "Multi-faith" 0)
  else if mm.2 = 0 ∧ 0 < generic_score then
    let scores2 := setKey scores "GenericFaith" generic_score
    ("Other/Unknown", scores2, getD (normalize_scores scores2) "Other/Unknown" 0)
  else
    (mm.1, scores, getD (normalize_scores scores) mm.1 0)

/-- The literal FBCore bonus markers of `detect_type`. -/
def CORE_BONUS_MARKERS : List String := ["parish", "diocese", "cathedral", "chapel"]

/-- The `core_hits` accumulator of `detect_type`: worship-place plus
worship-practice counts, plus a one-time bonus of 2 when any of the
four literal markers occurs in the combined text. -/
def coreHits (combined : String) : ℚ :=
  let base : Nat :=
    count_matches combined WORSHIP_PLACE_KEYWORDS
      + count_matches combined WORSHIP_PRACTICE_KEYWORDS
  if CORE_BONUS_MARKERS.any (fun w => containsStr w combined) then
    (base : ℚ) + 2
  else (base : ℚ)

/-- The `comm_hits` accumulator of `detect_type`; the Python float
literal `0.3` is modelled as the exact rational `3 / 10`. -/
def commHits (combined religion : String) : ℚ :=
  let base : ℚ :=
    ((count_matches combined LOCAL_COMMUNITY_KEYWORDS
      + count_matches combined community_keywords : Nat) : ℚ)
  if religion = "Christianity" ∨ religion = "Islam"
      ∨ religion = "Judaism" ∨ religion = "Multi-faith" then
    base + (count_matches combined GLOBAL_NGO_KEYWORDS : ℚ) * (3 / 10)
  else base

/-- The score dict of `detect_type` after all accumulations,
including the `Not-FB = 1.0` fallback when the other three
accumulators are all zero. -/
def typeScores (combined religion : String) : ScoreMap :=
  let fbcore := coreHits combined
  let fborigin : ℚ := (count_matches combined origin_keywords : ℚ)
  let fbcomm := commHits combined religion
  let base : ScoreMap :=
    [("FBCore", fbcore), ("FBOrigin", fborigin),
     ("FBCommunity", fbcomm), ("Not-FB", 0)]
  if fbcore = 0 ∧ fborigin = 0 ∧ fbcomm = 0 then setKey base "Not-FB" 1 else base

/-- `detect_type(text, name, religion)`. -/
def detect_type (text name religion : String) : String × ScoreMap × ℚ :=
  let combined := combinedText text name
  let scores := typeScores combined religion
  let best := (pyMaxByVal scores).1
  (best, scores, getD (normalize_scores scores) best 0)

/-- `inactive_hits + archive_hits` of `detect_activity` (the phrase
lists are passed through `lower()` exactly as the source does, though
they are already lowercase). -/
def inactiveTotal (combined : String) : Nat :=
  count_matches combined (INACTIVE_PHRASES.map pyLower)
    + count_matches combined (ARCHIVE_PHRASES.map pyLower)

/-- Python truthiness of `combined.strip()`: some non-whitespace
character remains. -/
def stripNonempty (s : String) : Bool :=
  s.data.any (fun c => !c.isWhitespace)

/-- `detect_activity(text, name)`. -/
def detect_activity (text name : String) : String × ScoreMap × ℚ :=
  let combined := combinedText text name
  let inact : ℚ := (inactiveTotal combined : ℚ)
  let scores0 : ScoreMap := [("Inactive", inact), ("Likely active", 0), ("Unknown", 0)]
  let sres :=
    if 0 < inact then (scores0, "Inactive")
    else if stripNonempty combined = true then
      (setKey scores0 "Likely active" 1, "Likely active")
    else (setKey scores0 "Unknown" 1, "Unknown")
  (sres.2, sres.1, getD (normalize_scores sres.1) sres.2 0)

/-- The record assembled by `classify_organization`. -/
structure ClassificationResult where
  fb_type : String
  religion : String
  activity_status : String
  conf_type : ℚ
  conf_religion : ℚ
  conf_activity : ℚ
  scores_type : ScoreMap
  scores_religion : ScoreMap
  scores_activity : ScoreMap
  fetched_text_length : Nat
  deriving DecidableEq

/-- `classify_organization(name, url)` with the text-acquisition step
factored out: `fetch_url` performs network I/O, so the classifier is
modelled as a function of the acquired text (empty when every fetch
failed), per the external-collaborator contract of the spec. -/
def classify_organization (name text : String) : ClassificationResult :=
  let r := detect_religion text name
  let t := detect_type text name r.1
  let a := detect_activity text name
  { fb_type := t.1
    religion := r.1
    activity_status := a.1
    conf_type := t.2.2
    conf_religion := r.2.2
    conf_activity := a.2.2
    scores_type := t.2.1
    scores_religion := r.2.1
    scores_activity := a.2.1
    fetched_text_length := text.length }

-- `Rat.add`, `Rat.mul`, `Rat.inv` and `Rat.div` are irreducible by
-- default, which blocks kernel evaluation of concrete classifier
-- runs; restore the default reducibility so that closed facts about
-- the classifier can be settled by `decide`.
set_option allowUnsafeReducibility true in
attribute [semireducible] Rat.add Rat.mul Rat.inv Rat.div

-- ---------- Helper lemmas about the string primitives ----------

theorem leadsWith_iff (n : List Char) : ∀ h : List Char, leadsWith n h = true ↔ n <+: h := by
  induction n with
  | nil => intro h; simp [leadsWith]
  | cons a as ih =>
    intro h
    cases h with
    | nil => simp [leadsWith]
    | cons b bs =>
      simp [leadsWith, List.cons_prefix_cons, ih]

theorem containsSub_iff (n : List Char) : ∀ h : List Char, containsSub n h = true ↔ n <:+: h := by
  intro h
  induction h with
  | nil => simp [containsSub, List.isEmpty_iff]
  | cons c rest ih =>
    simp [containsSub, leadsWith_iff, ih, List.infix_cons_iff]

theorem pyCountFuel_pos (n : List Char) (hn : ¬ n = []) :
    ∀ (fuel : Nat) (h : List Char), h.length ≤ fuel → containsSub n h = true →
      1 ≤ pyCountFuel n fuel h := by
  intro fuel
  induction fuel with
  | zero =>
    intro h hlen hc
    cases h with
    | nil => simp [containsSub, List.isEmpty_iff, hn] at hc
    | cons c rest => simp at hlen
  | succ fuel ih =>
    intro h hlen hc
    cases h with
    | nil => simp [containsSub, List.isEmpty_iff, hn] at hc
    | cons c rest =>
      rw [pyCountFuel]
      split
      · omega
      · next hlw =>
        apply ih rest (by simp at hlen; omega)
        simpa [containsSub, hlw] using hc

theorem pyCount_pos (n h : List Char) (hc : containsSub n h = true) : 1 ≤ pyCount n h := by
  by_cases hn : n = []
  · subst hn; simp [pyCount]
  · rw [pyCount, if_neg (by simpa [List.isEmpty_iff] using hn)]
    exact pyCountFuel_pos n hn h.length h (le_refl _) hc

theorem count_matches_shift (text : String) (ks : List String) :
    ∀ n : Nat,
      List.foldl
        (fun total kw =>
          if containsSub kw.data text.data then total + pyCount kw.data text.data
          else total)
        n ks
        = n + count_matches text ks := by
  induction ks with
  | nil => intro n; simp [count_matches]
  | cons k ks ih =>
    intro n
    rw [count_matches, List.foldl_cons, List.foldl_cons, ih, ih]
    split <;> omega

theorem count_matches_cons (text k : String) (ks : List String) :
    count_matches text (k :: ks)
      = (if containsSub k.data text.data then pyCount k.data text.data else 0)
        + count_matches text ks := by
  rw [count_matches, List.foldl_cons, count_matches_shift]
  split <;> omega

theorem count_matches_append (text : String) (ks ls : List String) :
    count_matches text (ks ++ ls) = count_matches text ks + count_matches text ls := by
  induction ks with
  | nil => simp [count_matches]
  | cons k ks ih =>
    rw [List.cons_append, count_matches_cons, count_matches_cons, ih]
    omega

theorem count_matches_pos_of_mem (text kw : String) (ks : List String)
    (hmem : kw ∈ ks) (hc : containsStr kw text = true) :
    1 ≤ count_matches text ks := by
  induction ks with
  | nil => cases hmem
  | cons k ks ih =>
    rw [count_matches_cons]
    rcases List.mem_cons.1 hmem with hk | hk
    · subst hk
      rw [if_pos (show containsSub kw.data text.data = true from hc)]
      have := pyCount_pos kw.data text.data hc
      omega
    · have := ih hk
      omega

-- ---------- Helper lemmas about score maps ----------

theorem getD_setKey_self (k : String) (v d : ℚ) :
    ∀ m : ScoreMap, getD (setKey m k v) k d = v := by
  intro m
  induction m with
  | nil => simp [setKey, getD]
  | cons p rest ih =>
    by_cases hp : p.1 = k
    · simp [setKey, hp, getD]
    · simp [setKey, hp, getD, ih]

theorem setKey_eq_append (k : String) (v : ℚ) :
    ∀ m : ScoreMap, (∀ p ∈ m, p.1 ≠ k) → setKey m k v = m ++ [(k, v)] := by
  intro m
  induction m with
  | nil => intro _; simp [setKey]
  | cons p rest ih =>
    intro hk
    have hp : ¬ p.1 = k := hk p (by simp)
    rw [setKey, if_neg hp, ih (fun q hq => hk q (by simp [hq]))]
    rfl

theorem getD_eq_default (k : String) (d : ℚ) :
    ∀ m : ScoreMap, (∀ p ∈ m, p.1 ≠ k) → getD m k d = d := by
  intro m
  induction m with
  | nil => intro _; simp [getD]
  | cons p rest ih =>
    intro hk
    rw [getD, if_neg (hk p (by simp)), ih (fun q hq => hk q (by simp [hq]))]

theorem getD_mem_or (k : String) (d : ℚ) :
    ∀ m : ScoreMap, getD m k d = d ∨ ∃ p ∈ m, getD m k d = p.2 := by
  intro m
  induction m with
  | nil => left; simp [getD]
  | cons p rest ih =>
    by_cases hp : p.1 = k
    · right
      exact ⟨p, by simp, by rw [getD, if_pos hp]⟩
    · rcases ih with h | ⟨q, hq, h⟩
      · left
        rw [getD, if_neg hp, h]
      · right
        exact ⟨q, by simp [hq], by rw [getD, if_neg hp, h]⟩

theorem setKey_nonneg (k : String) (v : ℚ) (hv : 0 ≤ v) :
    ∀ m : ScoreMap, (∀ p ∈ m, 0 ≤ p.2) → ∀ p ∈ setKey m k v, 0 ≤ p.2 := by
  intro m
  induction m with
  | nil =>
    intro _ p hp
    simp [setKey] at hp
    simp [hp, hv]
  | cons q rest ih =>
    intro hm p hp
    rw [setKey] at hp
    by_cases hq : q.1 = k
    · rw [if_pos hq] at hp
      rcases List.mem_cons.1 hp with h | h
      · simp [h, hv]
      · exact hm p (by simp [h])
    · rw [if_neg hq] at hp
      rcases List.mem_cons.1 hp with h | h
      · exact hm p (by simp [h])
      · exact ih (fun r hr => hm r (by simp [hr])) p h

theorem sumPos_cons (q : String × ℚ) (rest : ScoreMap) :
    sumPos (q :: rest) = (if 0 < q.2 then q.2 else 0) + sumPos rest := by
  rw [sumPos, sumPos, List.map_cons, List.filter_cons]
  by_cases hq : 0 < q.2
  · simp [hq]
  · simp [hq]

theorem sumPos_nonneg : ∀ m : ScoreMap, 0 ≤ sumPos m := by
  intro m
  induction m with
  | nil => simp [sumPos]
  | cons q rest ih =>
    rw [sumPos_cons]
    have : (0 : ℚ) ≤ if 0 < q.2 then q.2 else 0 := by
      split
      · linarith
      · linarith
    linarith

theorem snd_le_sumPos (p : String × ℚ) : ∀ m : ScoreMap, p ∈ m → p.2 ≤ sumPos m := by
  intro m
  induction m with
  | nil => intro hp; cases hp
  | cons q rest ih =>
    intro hp
    rw [sumPos_cons]
    have hrest := sumPos_nonneg rest
    rcases List.mem_cons.1 hp with h | h
    · subst h
      split
      · linarith
      · next hq => push_neg at hq; linarith
    · have := ih h
      have : (0 : ℚ) ≤ if 0 < q.2 then q.2 else 0 := by
        split
        · linarith
        · linarith
      linarith [ih h]

theorem mem_normalize_bounds (m : ScoreMap) (hm : ∀ p ∈ m, 0 ≤ p.2) :
    ∀ p ∈ normalize_scores m, 0 ≤ p.2 ∧ p.2 ≤ 100 := by
  intro p hp
  rw [normalize_scores] at hp
  split at hp
  · obtain ⟨q, _, rfl⟩ := List.mem_map.1 hp
    norm_num
  · next htot =>
    push_neg at htot
    obtain ⟨q, hq, rfl⟩ := List.mem_map.1 hp
    dsimp only
    constructor
    · have := hm q hq
      positivity
    · have h1 : q.2 / sumPos m ≤ 1 := (div_le_one htot).2 (snd_le_sumPos q m hq)
      nlinarith [h1]

theorem getD_normalize_bounds (m : ScoreMap) (k : String) (d : ℚ)
    (hm : ∀ p ∈ m, 0 ≤ p.2) (hd0 : 0 ≤ d) (hd1 : d ≤ 100) :
    0 ≤ getD (normalize_scores m) k d ∧ getD (normalize_scores m) k d ≤ 100 := by
  rcases getD_mem_or k d (normalize_scores m) with h | ⟨p, hp, h⟩
  · rw [h]; exact ⟨hd0, hd1⟩
  · rw [h]; exact mem_normalize_bounds m hm p hp

theorem getD_normalize_default (m : ScoreMap) (k : String) (d : ℚ)
    (hk : ∀ p ∈ m, p.1 ≠ k) : getD (normalize_scores m) k d = d := by
  apply getD_eq_default
  intro p hp
  rw [normalize_scores] at hp
  split at hp <;>
    (obtain ⟨q, hq, rfl⟩ := List.mem_map.1 hp; exact hk q hq)

-- ---------- Nonnegativity of the score maps the program builds ----------

theorem religionScores_nonneg (c : String) : ∀ p ∈ religionScores c, 0 ≤ p.2 := by
  intro p hp
  rw [religionScores] at hp
  obtain ⟨q, _, rfl⟩ := List.mem_map.1 hp
  exact Nat.cast_nonneg _

theorem genericScore_nonneg (c : String) : 0 ≤ genericScore c := by
  rw [genericScore]
  exact Nat.cast_nonneg _

theorem coreHits_nonneg (c : String) : 0 ≤ coreHits c := by
  rw [coreHits]
  split
  · positivity
  · positivity

theorem commHits_nonneg (c r : String) : 0 ≤ commHits c r := by
  rw [commHits]
  split
  · positivity
  · positivity

theorem typeScores_nonneg (c r : String) : ∀ p ∈ typeScores c r, 0 ≤ p.2 := by
  have hbase : ∀ p ∈ ([("FBCore", coreHits c),
      ("FBOrigin", ((count_matches c origin_keywords : Nat) : ℚ)),
      ("FBCommunity", commHits c r), ("Not-FB", (0 : ℚ))] : ScoreMap), 0 ≤ p.2 := by
    intro p hp
    rcases List.mem_cons.1 hp with h | hp
    · rw [h]; exact coreHits_nonneg c
    rcases List.mem_cons.1 hp with h | hp
    · rw [h]; exact Nat.cast_nonneg _
    rcases List.mem_cons.1 hp with h | hp
    · rw [h]; exact commHits_nonneg c r
    rcases List.mem_cons.1 hp with h | hp
    · rw [h]
    · cases hp
  intro p hp
  rw [typeScores] at hp
  split at hp
  · exact setKey_nonneg "Not-FB" 1 (by norm_num) _ hbase p hp
  · exact hbase p hp

theorem detect_religion_conf_bounds (text name : String) :
    0 ≤ (detect_religion text name).2.2 ∧ (detect_religion text name).2.2 ≤ 100 := by
  rw [detect_religion]
  split
  · norm_num
  · split
    · split
      · exact getD_normalize_bounds _ _ _
          (setKey_nonneg _ _ (by norm_num) _ (religionScores_nonneg _)) (by norm_num) (by norm_num)
      · exact getD_normalize_bounds _ _ _ (religionScores_nonneg _) (by norm_num) (by norm_num)
    · split
      · exact getD_normalize_bounds _ _ _ (religionScores_nonneg _) (by norm_num) (by norm_num)
      · split
        · exact getD_normalize_bounds _ _ _ (religionScores_nonneg _) (by norm_num) (by norm_num)
        · split
          · exact getD_normalize_bounds _ _ _
              (setKey_nonneg _ _ (genericScore_nonneg _) _ (religionScores_nonneg _))
              (by norm_num) (by norm_num)
          · exact getD_normalize_bounds _ _ _ (religionScores_nonneg _) (by norm_num) (by norm_num)

theorem detect_type_conf_bounds (text name religion : String) :
    0 ≤ (detect_type text name religion).2.2 ∧ (detect_type text name religion).2.2 ≤ 100 := by
  rw [detect_type]
  exact getD_normalize_bounds _ _ _ (typeScores_nonneg _ _) (by norm_num) (by norm_num)

theorem activityScores0_nonneg (x : ℚ) (hx : 0 ≤ x) :
    ∀ p ∈ ([("Inactive", x), ("Likely active", (0 : ℚ)), ("Unknown", (0 : ℚ))] : ScoreMap),
      0 ≤ p.2 := by
  intro p hp
  rcases List.mem_cons.1 hp with h | hp
  · rw [h]; exact hx
  rcases List.mem_cons.1 hp with h | hp
  · rw [h]
  rcases List.mem_cons.1 hp with h | hp
  · rw [h]
  · cases hp

theorem detect_activity_conf_bounds (text name : String) :
    0 ≤ (detect_activity text name).2.2 ∧ (detect_activity text name).2.2 ≤ 100 := by
  rw [detect_activity]
  have h0 := activityScores0_nonneg ((inactiveTotal (combinedText text name) : ℚ))
    (Nat.cast_nonneg _)
  split
  · exact getD_normalize_bounds _ _ _ h0 (by norm_num) (by norm_num)
  · split
    · exact getD_normalize_bounds _ _ _
        (setKey_nonneg _ _ (by norm_num) _ h0) (by norm_num) (by norm_num)
    · exact getD_normalize_bounds _ _ _
        (setKey_nonneg _ _ (by norm_num) _ h0) (by norm_num) (by norm_num)

-- ---------- Claims ----------

/-- C9: for every name and every acquired text (hence for every url,
the acquisition step being the external collaborator that produced the
text), each of the three confidence values in the record returned by
`classify_organization` is a number in the interval [0, 100]; the
record always carries all three, so none is ever null or absent. -/
theorem claim_C9 (name text : String) :
    (0 ≤ (classify_organization name text).conf_religion
      ∧ (classify_organization name text).conf_religion ≤ 100)
    ∧ (0 ≤ (classify_organization name text).conf_type
      ∧ (classify_organization name text).conf_type ≤ 100)
    ∧ (0 ≤ (classify_organization name text).conf_activity
      ∧ (classify_organization name text).conf_activity ≤ 100) := by
  rw [classify_organization]
  exact ⟨detect_religion_conf_bounds text name,
    detect_type_conf_bounds text name (detect_religion text name).1,
    detect_activity_conf_bounds text name⟩

/-- C1 counterexample: at the claimed input (name
"Global Relief Network", acquisition yielding empty text) the code
does NOT report activity Unknown: the combined text fed to
`detect_activity` contains the lowercased name, so it is non-empty
and the label is Likely active. -/
theorem claim_C1_counterexample :
    (classify_organization "Global Relief Network" "").activity_status ≠ "Unknown" := by
  decide

/-- C1 (amended): for the call with name "Global Relief Network" and
empty acquired text, religion is Other/Unknown with confidence 0.0 and
type is Not-FB (all type accumulators zero, so Not-FB is set to 1.0),
but the activity status is Likely active with confidence 100.0 — not
Unknown — because the combined text passed to the activity detector
starts with the lowercased organization name and is therefore
non-empty. -/
theorem claim_C1 :
    (classify_organization "Global Relief Network" "").religion = "Other/Unknown"
    ∧ (classify_organization "Global Relief Network" "").conf_religion = 0
    ∧ (classify_organization "Global Relief Network" "").fb_type = "Not-FB"
    ∧ (classify_organization "Global Relief Network" "").scores_type
        = [("FBCore", 0), ("FBOrigin", 0), ("FBCommunity", 0), ("Not-FB", 1)]
    ∧ (classify_organization "Global Relief Network" "").activity_status = "Likely active"
    ∧ (classify_organization "Global Relief Network" "").conf_activity = 100 := by
  decide

theorem normalize_keys (m : ScoreMap) :
    (normalize_scores m).map Prod.fst = m.map Prod.fst := by
  rw [normalize_scores]
  split <;> (rw [List.map_map]; rfl)

theorem sum_values_eq_sumPos (m : ScoreMap) (hm : ∀ p ∈ m, 0 ≤ p.2) :
    (m.map Prod.snd).sum = sumPos m := by
  induction m with
  | nil => simp [sumPos]
  | cons q rest ih =>
    rw [List.map_cons, List.sum_cons, sumPos_cons, ih (fun p hp => hm p (by simp [hp]))]
    have hq := hm q (by simp)
    split
    · ring
    · next h =>
      push_neg at h
      have hq0 : q.2 = 0 := le_antisymm h hq
      rw [hq0]

/-- C2 (amended): `normalize_scores` preserves the key list; when the
sum of the strictly positive values is `≤ 0` every key is sent to 0.0;
otherwise every key `k` is sent to `(scores[k] / total) * 100.0` — the
raw value, NOT `max(scores[k], 0)` as the claim states — and the
output values sum to exactly 100 (floats being modelled as exact
rationals) provided no input value is negative.  The input map is
untouched: the function builds a fresh map.  A negative input value is
carried through the division un-clamped, which is what refutes the
claimed `max(value, 0)` formula and, with it, the unconditional
sum-to-100 guarantee. -/
theorem claim_C2 (scores : ScoreMap) :
    (normalize_scores scores).map Prod.fst = scores.map Prod.fst
    ∧ (sumPos scores ≤ 0 →
        normalize_scores scores = scores.map (fun p => (p.1, (0 : ℚ))))
    ∧ (0 < sumPos scores →
        normalize_scores scores
          = scores.map (fun p => (p.1, p.2 / sumPos scores * 100))
        ∧ ((∀ p ∈ scores, 0 ≤ p.2) →
            ((normalize_scores scores).map Prod.snd).sum = 100)) := by
  refine ⟨normalize_keys scores, ?_, ?_⟩
  · intro h
    rw [normalize_scores, if_pos h]
  · intro h
    have hne : ¬ sumPos scores ≤ 0 := not_le.2 h
    refine ⟨by rw [normalize_scores, if_neg hne], ?_⟩
    intro hm
    rw [normalize_scores, if_neg hne, List.map_map]
    have hfun : (Prod.snd ∘ fun p : String × ℚ => (p.1, p.2 / sumPos scores * 100))
        = fun p : String × ℚ => p.2 * (100 / sumPos scores) := by
      funext p
      show p.2 / sumPos scores * 100 = p.2 * (100 / sumPos scores)
      ring
    rw [hfun, List.sum_map_mul_right, sum_values_eq_sumPos scores hm,
      mul_comm, div_mul_cancel₀]
    exact ne_of_gt h

/-- C2 counterexample: on the input map `{a: 1.0, b: -1.0}` the code
returns `{a: 100.0, b: -100.0}` while the spec formula
`(max(value,0)/total)*100` would return `{a: 100.0, b: 0.0}`; in
particular the output values sum to 0, not 100. -/
theorem claim_C2_counterexample :
    normalize_scores [("a", (1 : ℚ)), ("b", -1)]
      ≠ normalize_scores_specModel [("a", (1 : ℚ)), ("b", -1)]
    ∧ normalize_scores [("a", (1 : ℚ)), ("b", -1)] = [("a", 100), ("b", -100)] := by
  constructor
  · decide
  · decide

/-- Witness for C2 at a concrete positive-valued map. -/
theorem claim_C2_witness :
    (0 < sumPos [("a", (3 : ℚ)), ("b", 1)])
    ∧ ((normalize_scores [("a", (3 : ℚ)), ("b", 1)]).map Prod.snd).sum = 100 :=
  ⟨by decide, ((claim_C2 [("a", (3 : ℚ)), ("b", 1)]).2.2 (by decide)).2 (by decide)⟩

/-- C3 counterexample: the universally quantified part
`count_matches("", K) == 0` fails for the keyword list containing the
empty keyword: Python evaluates `"" in ""` to True and `"".count("")`
to 1, so `count_matches("", [""]) == 1`. -/
theorem claim_C3_counterexample : count_matches "" [""] ≠ 0 := by
  decide

/-- C3 (amended): `count_matches(T, K)` is always `≥ 0` (it is a sum
of non-negative occurrence counts), and `count_matches("", K) == 0`
holds for every keyword list `K` whose keywords are all non-empty —
the restriction the empty-keyword counterexample forces; every
lexicon of the program satisfies it. -/
theorem claim_C3 (T : String) (K : List String) (hK : ∀ kw ∈ K, kw ≠ "") :
    0 ≤ count_matches T K ∧ count_matches "" K = 0 := by
  refine ⟨Nat.zero_le _, ?_⟩
  induction K with
  | nil => rfl
  | cons k ks ih =>
    rw [count_matches_cons, ih (fun kw hkw => hK kw (by simp [hkw]))]
    have hk : k.data ≠ [] := by
      intro hd
      apply hK k (by simp)
      cases k with
      | mk l =>
        rw [show l = [] from hd]
    rw [if_neg]
    simp [containsSub, List.isEmpty_iff, hk]

/-- Witness for C3 at a concrete keyword list. -/
theorem claim_C3_witness :
    (∀ kw ∈ ["mosque", "church"], kw ≠ "")
    ∧ (0 ≤ count_matches "xyz" ["mosque", "church"]
      ∧ count_matches "" ["mosque", "church"] = 0) :=
  ⟨by decide, claim_C3 "xyz" ["mosque", "church"] (by decide)⟩

theorem getD_religionScores_multi (c : String) :
    getD (religionScores c) "Multi-faith" 0
      = ((count_matches c ["interfaith", "inter faith", "inter-faith",
          "multi-faith", "multi faith",
          "inter faith network", "multi-faith network"] : Nat) : ℚ) := rfl

/-- C4: whenever the lowercased organization name contains
"interfaith", "multi-faith" or "multi faith" as a substring, and the
combined text carries at least one religious signal (the top
main-religion score, the multi-faith score and the generic-faith score
are not all zero), `detect_religion` labels the organization
Multi-faith, and the returned raw-score map holds a Multi-faith score
of at least 1.0 (forced up to 1.0 when the keyword count was 0). -/
theorem claim_C4 (name text : String)
    (hmark : nameHasInterfaithMarker name = true)
    (hsig : ¬ ((pyMaxByVal (mainScores (religionScores (combinedText text name)))).2 = 0
        ∧ getD (religionScores (combinedText text name)) "Multi-faith" 0 = 0
        ∧ genericScore (combinedText text name) = 0)) :
    (detect_religion text name).1 = "Multi-faith"
    ∧ 1 ≤ getD (detect_religion text name).2.1 "Multi-faith" 0 := by
  rw [detect_religion, if_neg hsig, if_pos hmark]
  constructor
  · rfl
  · dsimp only
    split
    · rw [getD_setKey_self]
    · next hms =>
      rw [getD_religionScores_multi] at hms ⊢
      have hne : count_matches (combinedText text name)
          ["interfaith", "inter faith", "inter-faith", "multi-faith", "multi faith",
           "inter faith network", "multi-faith network"] ≠ 0 := by
        intro h0
        exact hms (by rw [h0]; norm_num)
      exact_mod_cast Nat.pos_of_ne_zero hne

/-- Witness for C4 at name "interfaith", empty text. -/
theorem claim_C4_witness :
    (nameHasInterfaithMarker "interfaith" = true)
    ∧ (¬ ((pyMaxByVal (mainScores (religionScores (combinedText "" "interfaith")))).2 = 0
        ∧ getD (religionScores (combinedText "" "interfaith")) "Multi-faith" 0 = 0
        ∧ genericScore (combinedText "" "interfaith") = 0))
    ∧ (detect_religion "" "interfaith").1 = "Multi-faith"
    ∧ 1 ≤ getD (detect_religion "" "interfaith").2.1 "Multi-faith" 0 :=
  ⟨by decide, by decide, claim_C4 "interfaith" "" (by decide) (by decide)⟩

theorem mainScores_religion (c : String) :
    mainScores (religionScores c)
      = [("Islam", getD (religionScores c) "Islam" 0),
         ("Christianity", getD (religionScores c) "Christianity" 0),
         ("Judaism", getD (religionScores c) "Judaism" 0)] := rfl

theorem pyMax3_first (a b c : String) (x y z : ℚ) (hy : y ≤ x) (hz : z ≤ x) :
    pyMaxByVal [(a, x), (b, y), (c, z)] = (a, x) := by
  rw [pyMaxByVal, List.foldl_cons, List.foldl_cons, List.foldl_nil]
  rw [if_neg (not_lt.2 hy), if_neg (not_lt.2 hz)]

theorem pyMax3_second (a b c : String) (x y z : ℚ) (hxy : x < y) (hz : z ≤ y) :
    pyMaxByVal [(a, x), (b, y), (c, z)] = (b, y) := by
  rw [pyMaxByVal, List.foldl_cons, List.foldl_cons, List.foldl_nil]
  rw [if_pos hxy, if_neg (not_lt.2 hz)]

theorem detect_religion_main_label (name text : String)
    (hmark : nameHasInterfaithMarker name = false)
    (hmm1 : 1 ≤ (pyMaxByVal (mainScores (religionScores (combinedText text name)))).2) :
    (detect_religion text name).1
      = (pyMaxByVal (mainScores (religionScores (combinedText text name)))).1 := by
  rw [detect_religion]
  rw [if_neg (fun h => by rw [h.1] at hmm1; norm_num at hmm1)]
  rw [if_neg (by rw [hmark]; simp)]
  by_cases h3 : 2 ≤ (pyMaxByVal (mainScores (religionScores (combinedText text name)))).2
      ∨ getD (religionScores (combinedText text name)) "Multi-faith" 0
        < (pyMaxByVal (mainScores (religionScores (combinedText text name)))).2
  · rw [if_pos h3]
  · rw [if_neg h3]
    rw [if_neg (fun h => by rw [h.2] at hmm1; norm_num at hmm1)]
    rw [if_neg (fun h => by rw [h.1] at hmm1; norm_num at hmm1)]

/-- C5: ties among main religions are broken by the iteration order
Islam, Christianity, Judaism of the religion lexicon table, the
first-listed winning.  Part one: whenever the name carries no
interfaith marker and the Islam score is ≥ 1 and at least as large as
the Christianity and Judaism scores (so in particular on any nonzero
tie for the maximum involving Islam, such as Islam = 2 and
Christianity = 2), the label is Islam.  Part two: whenever the
Christianity score is ≥ 1, strictly above Islam and at least as large
as Judaism (so on a Christianity/Judaism tie for the maximum), the
label is Christianity — the first-listed religion wins every tie,
whether the main label is picked by rule 3 or by the rule-6
fallback. -/
theorem claim_C5 :
    (∀ name text : String,
      nameHasInterfaithMarker name = false →
      getD (religionScores (combinedText text name)) "Christianity" 0
        ≤ getD (religionScores (combinedText text name)) "Islam" 0 →
      getD (religionScores (combinedText text name)) "Judaism" 0
        ≤ getD (religionScores (combinedText text name)) "Islam" 0 →
      1 ≤ getD (religionScores (combinedText text name)) "Islam" 0 →
      (detect_religion text name).1 = "Islam")
    ∧ (∀ name text : String,
      nameHasInterfaithMarker name = false →
      getD (religionScores (combinedText text name)) "Islam" 0
        < getD (religionScores (combinedText text name)) "Christianity" 0 →
      getD (religionScores (combinedText text name)) "Judaism" 0
        ≤ getD (religionScores (combinedText text name)) "Christianity" 0 →
      1 ≤ getD (religionScores (combinedText text name)) "Christianity" 0 →
      (detect_religion text name).1 = "Christianity") := by
  constructor
  · intro name text hmark hC hJ h2
    have hmm := mainScores_religion (combinedText text name)
    have hmax : pyMaxByVal (mainScores (religionScores (combinedText text name)))
        = ("Islam", getD (religionScores (combinedText text name)) "Islam" 0) := by
      rw [hmm]
      exact pyMax3_first _ _ _ _ _ _ hC hJ
    rw [detect_religion_main_label name text hmark (by rw [hmax]; exact h2), hmax]
  · intro name text hmark hI hJ h2
    have hmm := mainScores_religion (combinedText text name)
    have hmax : pyMaxByVal (mainScores (religionScores (combinedText text name)))
        = ("Christianity", getD (religionScores (combinedText text name)) "Christianity" 0) := by
      rw [hmm]
      exact pyMax3_second _ _ _ _ _ _ hI hJ
    rw [detect_religion_main_label name text hmark (by rw [hmax]; exact h2), hmax]

/-- Witness for C5: name "x", text "mosque masjid church parish"
(Islam = 2 from mosque+masjid, Christianity = 2 from church+parish,
Judaism = 0; the Islam/Christianity tie resolves to Islam). -/
theorem claim_C5_witness :
    (nameHasInterfaithMarker "x" = false
      ∧ getD (religionScores (combinedText "mosque masjid church parish" "x"))
          "Christianity" 0
        ≤ getD (religionScores (combinedText "mosque masjid church parish" "x")) "Islam" 0
      ∧ getD (religionScores (combinedText "mosque masjid church parish" "x")) "Judaism" 0
        ≤ getD (religionScores (combinedText "mosque masjid church parish" "x")) "Islam" 0
      ∧ 1 ≤ getD (religionScores (combinedText "mosque masjid church parish" "x")) "Islam" 0)
    ∧ (detect_religion "mosque masjid church parish" "x").1 = "Islam" :=
  ⟨⟨by decide, by decide, by decide, by decide⟩,
    claim_C5.1 "x" "mosque masjid church parish" (by decide) (by decide) (by decide) (by decide)⟩

theorem religionScores_keys (c : String) :
    ∀ p ∈ religionScores c,
      p.1 = "Islam" ∨ p.1 = "Christianity" ∨ p.1 = "Judaism" ∨ p.1 = "Multi-faith" := by
  intro p hp
  rw [religionScores, RELIGION_KEYWORDS] at hp
  rw [List.map_cons, List.map_cons, List.map_cons, List.map_cons, List.map_nil] at hp
  rcases List.mem_cons.1 hp with h | hp
  · rw [h]; left; rfl
  rcases List.mem_cons.1 hp with h | hp
  · rw [h]; right; left; rfl
  rcases List.mem_cons.1 hp with h | hp
  · rw [h]; right; right; left; rfl
  rcases List.mem_cons.1 hp with h | hp
  · rw [h]; right; right; right; rfl
  · cases hp

/-- C6: when the top main-religion score is 0, the multi-faith score
is 0, the name has no interfaith marker and the generic-faith score is
positive, `detect_religion` returns the label Other/Unknown, appends a
GenericFaith entry holding the generic count to the returned raw-score
map, and reports confidence exactly 0.0: the normalization lookup asks
for the key Other/Unknown, which is absent from the score map, so the
default 0.0 is returned even though a genuine generic-faith signal
exists. -/
theorem claim_C6 (name text : String)
    (hmax : (pyMaxByVal (mainScores (religionScores (combinedText text name)))).2 = 0)
    (hmulti : getD (religionScores (combinedText text name)) "Multi-faith" 0 = 0)
    (hmark : nameHasInterfaithMarker name = false)
    (hgen : 0 < genericScore (combinedText text name)) :
    (detect_religion text name).1 = "Other/Unknown"
    ∧ (detect_religion text name).2.1
        = religionScores (combinedText text name)
          ++ [("GenericFaith", genericScore (combinedText text name))]
    ∧ (detect_religion text name).2.2 = 0 := by
  have hfresh : ∀ p ∈ religionScores (combinedText text name), p.1 ≠ "GenericFaith" := by
    intro p hp
    rcases religionScores_keys _ p hp with h | h | h | h <;> (rw [h]; decide)
  have hset : setKey (religionScores (combinedText text name)) "GenericFaith"
      (genericScore (combinedText text name))
      = religionScores (combinedText text name)
        ++ [("GenericFaith", genericScore (combinedText text name))] :=
    setKey_eq_append _ _ _ hfresh
  rw [detect_religion]
  rw [if_neg (fun hzero => absurd hzero.2.2 (ne_of_gt hgen))]
  rw [if_neg (by rw [hmark]; simp)]
  rw [if_neg (by
    rw [hmax, hmulti]
    push_neg
    norm_num)]
  rw [if_neg (by
    rw [hmax, hmulti]
    intro hcon
    exact absurd hcon.1 (lt_irrefl 0))]
  rw [if_pos ⟨hmax, hgen⟩]
  refine ⟨rfl, hset, ?_⟩
  dsimp only
  rw [hset]
  apply getD_normalize_default
  intro p hp
  rcases List.mem_append.1 hp with h | h
  · rcases religionScores_keys _ p h with h1 | h1 | h1 | h1 <;> (rw [h1]; decide)
  · have h1 : p.1 = "GenericFaith" := by
      rw [show p = ("GenericFaith", genericScore (combinedText text name)) by
        simpa using h]
    rw [h1]
    decide

/-- Witness for C6: name "x", text "faith-based" (generic-faith count
1, all religion keyword counts 0). -/
theorem claim_C6_witness :
    ((pyMaxByVal (mainScores (religionScores (combinedText "faith-based" "x")))).2 = 0
      ∧ getD (religionScores (combinedText "faith-based" "x")) "Multi-faith" 0 = 0
      ∧ nameHasInterfaithMarker "x" = false
      ∧ 0 < genericScore (combinedText "faith-based" "x"))
    ∧ (detect_religion "faith-based" "x").1 = "Other/Unknown"
    ∧ (detect_religion "faith-based" "x").2.1
        = religionScores (combinedText "faith-based" "x")
          ++ [("GenericFaith", genericScore (combinedText "faith-based" "x"))]
    ∧ (detect_religion "faith-based" "x").2.2 = 0 :=
  ⟨⟨by decide, by decide, by decide, by decide⟩,
    claim_C6 "x" "faith-based" (by decide) (by decide) (by decide) (by decide)⟩

theorem getD_typeScores_fbcore (c r : String) :
    getD (typeScores c r) "FBCore" 0 = coreHits c := by
  rw [typeScores]
  split
  · rfl
  · rfl

/-- C7: in `detect_type`, the FBCore accumulator equals the count of
worship-place keywords plus worship-practice keywords in the combined
text, plus a bonus of exactly 2 — added once, not per occurrence —
when any of the literal substrings "parish", "diocese", "cathedral",
"chapel" appears anywhere in the combined text, and no bonus
otherwise. -/
theorem claim_C7 (text name religion : String) :
    getD (detect_type text name religion).2.1 "FBCore" 0
      = ((count_matches (combinedText text name) WORSHIP_PLACE_KEYWORDS
          + count_matches (combinedText text name) WORSHIP_PRACTICE_KEYWORDS : Nat) : ℚ)
        + (if ∃ w ∈ CORE_BONUS_MARKERS, containsStr w (combinedText text name) = true
           then 2 else 0) := by
  have hiff : (CORE_BONUS_MARKERS.any
        (fun w => containsStr w (combinedText text name)) = true)
      ↔ (∃ w ∈ CORE_BONUS_MARKERS, containsStr w (combinedText text name) = true) := by
    simp [List.any_eq_true]
  rw [detect_type]
  rw [getD_typeScores_fbcore, coreHits]
  by_cases h : ∃ w ∈ CORE_BONUS_MARKERS, containsStr w (combinedText text name) = true
  · rw [if_pos (hiff.2 h), if_pos h]
  · rw [if_neg (fun hc => h (hiff.1 hc)), if_neg h]
    norm_num

theorem getD_detect_activity_inactive (text name : String) :
    getD (detect_activity text name).2.1 "Inactive" 0
      = ((inactiveTotal (combinedText text name) : Nat) : ℚ) := by
  rw [detect_activity]
  dsimp only
  split
  · rfl
  · split
    · rfl
    · rfl

/-- C8: whenever the combined text contains at least one inactive
phrase or archive phrase, `detect_activity` returns the label
Inactive, a raw Inactive score equal to the total number of inactive
plus archive phrase occurrences, and confidence exactly 100.0,
regardless of any other content. -/
theorem claim_C8 (name text : String)
    (h : ∃ p, (p ∈ INACTIVE_PHRASES.map pyLower ∨ p ∈ ARCHIVE_PHRASES.map pyLower)
        ∧ containsStr p (combinedText text name) = true) :
    (detect_activity text name).1 = "Inactive"
    ∧ getD (detect_activity text name).2.1 "Inactive" 0
        = ((inactiveTotal (combinedText text name) : Nat) : ℚ)
    ∧ (detect_activity text name).2.2 = 100 := by
  obtain ⟨p, hp, hc⟩ := h
  have htot : 1 ≤ inactiveTotal (combinedText text name) := by
    rw [inactiveTotal]
    rcases hp with hmem | hmem
    · have := count_matches_pos_of_mem _ p _ hmem hc
      omega
    · have := count_matches_pos_of_mem _ p _ hmem hc
      omega
  have hpos : (0 : ℚ) < ((inactiveTotal (combinedText text name) : Nat) : ℚ) := by
    exact_mod_cast htot
  rw [detect_activity]
  dsimp only
  rw [if_pos hpos]
  refine ⟨rfl, rfl, ?_⟩
  have hsum : sumPos [("Inactive", ((inactiveTotal (combinedText text name) : Nat) : ℚ)),
      ("Likely active", 0), ("Unknown", 0)]
      = ((inactiveTotal (combinedText text name) : Nat) : ℚ) := by
    rw [sumPos_cons, if_pos hpos]
    simp [sumPos_cons, sumPos]
  show getD (normalize_scores [("Inactive", ((inactiveTotal (combinedText text name) : Nat) : ℚ)),
      ("Likely active", 0), ("Unknown", 0)]) "Inactive" 0 = 100
  rw [normalize_scores]
  rw [hsum, if_neg (not_le.2 hpos)]
  rw [List.map_cons]
  rw [getD, if_pos rfl]
  dsimp only
  rw [div_self (ne_of_gt hpos)]
  norm_num

/-- Witness for C8: name "x", text "has closed". -/
theorem claim_C8_witness :
    (∃ p, (p ∈ INACTIVE_PHRASES.map pyLower ∨ p ∈ ARCHIVE_PHRASES.map pyLower)
        ∧ containsStr p (combinedText "has closed" "x") = true)
    ∧ (detect_activity "has closed" "x").1 = "Inactive"
    ∧ getD (detect_activity "has closed" "x").2.1 "Inactive" 0
        = ((inactiveTotal (combinedText "has closed" "x") : Nat) : ℚ)
    ∧ (detect_activity "has closed" "x").2.2 = 100 :=
  ⟨⟨"has closed", by decide, by decide⟩,
    claim_C8 "x" "has closed" ⟨"has closed", by decide, by decide⟩⟩

/-- C10: because the inactive-phrase lexicon contains "has closed" as
well as the longer "this organization has closed", and `count_matches`
counts each keyword independently, a single occurrence of
"this organization has closed" in the combined text contributes at
least 2 to the raw Inactive score of `detect_activity`. -/
theorem claim_C10 (name text : String)
    (h : containsStr "this organization has closed" (combinedText text name) = true) :
    2 ≤ getD (detect_activity text name).2.1 "Inactive" 0 := by
  have h2 : containsStr "has closed" (combinedText text name) = true := by
    rw [containsStr] at h ⊢
    exact (containsSub_iff _ _).2
      (List.IsInfix.trans (by decide) ((containsSub_iff _ _).1 h))
  have hsplit : INACTIVE_PHRASES.map pyLower
      = ["has now closed"] ++ ["has closed"]
        ++ ["ceased operations", "ceased to operate", "no longer operating",
            "no longer exists", "has been wound up", "has now been wound up",
            "this organisation has closed"]
        ++ ["this organization has closed"]
        ++ ["was dissolved", "has been dissolved", "has now been dissolved",
            "dissolved on"] := by decide
  have hcount : 2 ≤ count_matches (combinedText text name) (INACTIVE_PHRASES.map pyLower) := by
    rw [hsplit, count_matches_append, count_matches_append, count_matches_append,
      count_matches_append]
    have ha := count_matches_pos_of_mem (combinedText text name) "has closed"
      ["has closed"] (by decide) h2
    have hb := count_matches_pos_of_mem (combinedText text name)
      "this organization has closed" ["this organization has closed"] (by decide) h
    omega
  rw [getD_detect_activity_inactive]
  have hge : 2 ≤ inactiveTotal (combinedText text name) := by
    rw [inactiveTotal]
    omega
  exact_mod_cast hge

/-- Witness for C10: name "x", text "this organization has closed". -/
theorem claim_C10_witness :
    (containsStr "this organization has closed"
        (combinedText "this organization has closed" "x") = true)
    ∧ 2 ≤ getD (detect_activity "this organization has closed" "x").2.1 "Inactive" 0 :=
  ⟨by decide, claim_C10 "x" "this organization has closed" (by decide)⟩
